import Mathlib

/-!
Verification of the container lifecycle reaper
(`containerreaper/containerreaper.go`).

The Go code is shallowly embedded: every collaborator call is a lookup in
an `Env` record of response functions, and every effectful function
returns the list of observable events it emits (queries, release calls,
worker lookups, worker-side TTL instructions, registry expiry updates)
together with its return value.  The classification logic (grouping,
aggregate maps, the retain/release decision) is translated structurally
from the source, with Go maps rendered as insertion-ordered association
lists.
-/

namespace ContainerReaper

/-- A registry container record (`db.SavedContainer`), restricted to the
fields the reaper reads: handle, build ID, pipeline ID, job name. -/
structure SavedContainer where
  handle : String
  buildID : Int
  pipelineID : Int
  jobName : String
deriving DecidableEq, Repr

/-- Result of `workerClient.LookupContainer`: error, not found, or found. -/
inductive LookupRes
  | error
  | notFound
  | found
deriving DecidableEq, Repr

/-- Result of `db.FindJobIDForBuild`: `(jobID, found, err)`. -/
inductive ResolveRes
  | error
  | notFound
  | found (jobID : Int)
deriving DecidableEq, Repr

/-- Result of `pipelineDB.GetConfig`: `(config, version, found, err)`,
keeping only the configured job names. -/
inductive ConfigRes
  | error
  | notFound
  | found (jobs : List String)
deriving DecidableEq, Repr

/-- Responses of all collaborators for one pass.  Query fields are `none`
when the query errors.  `orphanQ` models
`FindOrphanContainersWithInfiniteTTL`, declared on `ContainerReaperDB`. -/
structure Env where
  successQ : Option (List SavedContainer)
  failQ : Option (List SavedContainer)
  orphanQ : Option (List SavedContainer)
  resolve : Int → ResolveRes
  buildWithIDOk : Int → Bool
  getConfig : Int → ConfigRes
  lookup : String → LookupRes
  updateOk : String → Bool

/-- Observable events of a pass, in emission order. -/
inductive Event
  | querySuccessful
  | queryUnsuccessful
  | queryOrphan
  | releaseCall (handle : String)
  | workerLookup (handle : String)
  | workerTTL (handle : String)
  | dbUpdate (handle : String)
deriving DecidableEq, Repr

/-- `updateWorkerContainerTTL`: look up the live container; on error or
not-found fail; otherwise instruct the finite TTL.  Returns the trace and
whether it succeeded. -/
def updateWorkerContainerTTL (env : Env) (handle : String) :
    List Event × Bool :=
  match env.lookup handle with
  | .error => ([.workerLookup handle], false)
  | .notFound => ([.workerLookup handle], false)
  | .found => ([.workerLookup handle, .workerTTL handle], true)

/-- `release`: worker-side TTL first; only on its success attempt the
registry expiry update, whose failure is surfaced as the release error.
The leading `releaseCall` event marks the invocation itself. -/
def release (env : Env) (handle : String) : List Event × Bool :=
  let w := updateWorkerContainerTTL env handle
  if w.2 then
    (.releaseCall handle :: w.1 ++ [.dbUpdate handle], env.updateOk handle)
  else
    (.releaseCall handle :: w.1, false)

/-- The unconditional release loop over the successful-build candidates
(`Run`, lines 82–85). -/
def releaseAll (env : Env) : List SavedContainer → List Event
  | [] => []
  | c :: rest => (release env c.handle).1 ++ releaseAll env rest

/-- Go map read `m[k]` on a `map[int]int`: zero value `0` when absent. -/
def lookupD (m : List (Int × Int)) (k : Int) : Int :=
  match m.find? (fun p => p.1 == k) with
  | some p => p.2
  | none => 0

/-- Go map write `m[k] = v` on the association-list rendering. -/
def setEntry (m : List (Int × Int)) (k v : Int) : List (Int × Int) :=
  match m with
  | [] => [(k, v)]
  | p :: rest => if p.1 == k then (k, v) :: rest else p :: setEntry rest k v

/-- `buildSuccessMap`: fold over the successful-build containers building
`jobID → highestSuccessfulBuildID`; a resolver error or miss releases the
container and contributes nothing. -/
def buildSuccessMapAux (env : Env) :
    List SavedContainer → List (Int × Int) → List Event × List (Int × Int)
  | [], m => ([], m)
  | c :: rest, m =>
    match env.resolve c.buildID with
    | .found jobID =>
      let m' := if c.buildID > lookupD m jobID then setEntry m jobID c.buildID else m
      buildSuccessMapAux env rest m'
    | .error =>
      let r := buildSuccessMapAux env rest m
      ((release env c.handle).1 ++ r.1, r.2)
    | .notFound =>
      let r := buildSuccessMapAux env rest m
      ((release env c.handle).1 ++ r.1, r.2)

/-- `buildSuccessMap` proper: a nil candidate list yields the empty map. -/
def buildSuccessMap (env : Env) (containers : List SavedContainer) :
    List Event × List (Int × Int) :=
  buildSuccessMapAux env containers []

/-- Go map read on `map[int][]db.SavedContainer` (absent ↦ nil group). -/
def lookupG (m : List (Int × List SavedContainer)) (k : Int) :
    Option (List SavedContainer) :=
  match m.find? (fun p => p.1 == k) with
  | some p => some p.2
  | none => none

/-- Appending a container to its job's group, creating the group when the
job is new (`buildFailedMap`, lines 183–189). -/
def addToGroup (m : List (Int × List SavedContainer)) (k : Int)
    (c : SavedContainer) : List (Int × List SavedContainer) :=
  match m with
  | [] => [(k, [c])]
  | p :: rest =>
    if p.1 == k then (k, p.2 ++ [c]) :: rest else p :: addToGroup rest k c

/-- `buildFailedMap`: each unsuccessful container is released immediately
when its pipeline cannot be built, its config fetch errors or misses, its
job name is gone from the config, or its build does not resolve to a job;
otherwise it joins its job's group. -/
def buildFailedMapAux (env : Env) :
    List SavedContainer → List (Int × List SavedContainer) →
    List Event × List (Int × List SavedContainer)
  | [], m => ([], m)
  | c :: rest, m =>
    if env.buildWithIDOk c.pipelineID then
      match env.getConfig c.pipelineID with
      | .found jobs =>
        if jobs.all (fun j => j ≠ c.jobName) then
          let r := buildFailedMapAux env rest m
          ((release env c.handle).1 ++ r.1, r.2)
        else
          match env.resolve c.buildID with
          | .found jobID => buildFailedMapAux env rest (addToGroup m jobID c)
          | .error =>
            let r := buildFailedMapAux env rest m
            ((release env c.handle).1 ++ r.1, r.2)
          | .notFound =>
            let r := buildFailedMapAux env rest m
            ((release env c.handle).1 ++ r.1, r.2)
      | .error =>
        let r := buildFailedMapAux env rest m
        ((release env c.handle).1 ++ r.1, r.2)
      | .notFound =>
        let r := buildFailedMapAux env rest m
        ((release env c.handle).1 ++ r.1, r.2)
    else
      let r := buildFailedMapAux env rest m
      ((release env c.handle).1 ++ r.1, r.2)

/-- `buildFailedMap` proper. -/
def buildFailedMap (env : Env) (containers : List SavedContainer) :
    List Event × List (Int × List SavedContainer) :=
  buildFailedMapAux env containers []

/-- `maxFailedBuildID` for a group: running maximum started at `-1`
(`Run`, lines 98–103). -/
def maxBuild (group : List SavedContainer) : Int :=
  group.foldl (fun acc c => if c.buildID > acc then c.buildID else acc) (-1)

/-- The inner decision loop of `Run` (lines 105–112): release each
container of the group iff `maxSuccessfulBuildID > maxFailedBuildID` or
`maxFailedBuildID > buildID`. -/
def processGroup (env : Env) (sm : List (Int × Int)) (jobID : Int)
    (maxFailed : Int) : List SavedContainer → List Event
  | [] => []
  | c :: rest =>
    (if lookupD sm jobID > maxFailed ∨ maxFailed > c.buildID then
      (release env c.handle).1
    else []) ++ processGroup env sm jobID maxFailed rest

/-- The outer per-job loop of `Run` (lines 97–113). -/
def processGroups (env : Env) (sm : List (Int × Int)) :
    List (Int × List SavedContainer) → List Event
  | [] => []
  | (jobID, group) :: rest =>
    processGroup env sm jobID (maxBuild group) group ++
      processGroups env sm rest

/-- `Run`: the full pass.  Returns the event trace and whether `Run`
returned an error.  A failed successful-candidates query is absorbed
(`successfulContainers` stays nil); a failed unsuccessful-candidates
query aborts the pass with an error. -/
def run (env : Env) : List Event × Bool :=
  let s : List Event × List SavedContainer :=
    match env.successQ with
    | none => ([], [])
    | some cs => (releaseAll env cs, cs)
  match env.failQ with
  | none => (.querySuccessful :: s.1 ++ [.queryUnsuccessful], true)
  | some fc =>
    let fm := buildFailedMap env fc
    let sm := buildSuccessMap env s.2
    (.querySuccessful :: s.1 ++ [.queryUnsuccessful] ++ fm.1 ++ sm.1 ++
      processGroups env sm.2 fm.2, false)

end ContainerReaper

namespace ContainerReaper

/-- The handle an event concerns, when it concerns one. -/
def eventHandle : Event → Option String
  | .releaseCall h => some h
  | .workerLookup h => some h
  | .workerTTL h => some h
  | .dbUpdate h => some h
  | _ => none

/-- The sequence of handles on which `release` was invoked, read off a
trace. -/
def releasedSeq (tr : List Event) : List String :=
  tr.filterMap fun e =>
    match e with
    | .releaseCall h => some h
    | _ => none

/-- True when `FindJobIDForBuild` errors or misses for this container. -/
def resolveFails (env : Env) (c : SavedContainer) : Bool :=
  match env.resolve c.buildID with
  | .found _ => false
  | .error => true
  | .notFound => true

theorem release_of_lookup_ne_found (env : Env) (h : String)
    (hl : env.lookup h ≠ .found) :
    release env h = ([.releaseCall h, .workerLookup h], false) := by
  cases hlk : env.lookup h <;>
    simp [release, updateWorkerContainerTTL, hlk] at hl ⊢

theorem release_of_lookup_found (env : Env) (h : String)
    (hl : env.lookup h = .found) :
    release env h =
      ([.releaseCall h, .workerLookup h, .workerTTL h, .dbUpdate h],
        env.updateOk h) := by
  simp [release, updateWorkerContainerTTL, hl]

theorem release_fst_cases (env : Env) (h : String) :
    (release env h).1 = [.releaseCall h, .workerLookup h] ∨
    (release env h).1 =
      [.releaseCall h, .workerLookup h, .workerTTL h, .dbUpdate h] := by
  cases hlk : env.lookup h
  · exact Or.inl (by rw [release_of_lookup_ne_found env h (by simp [hlk])])
  · exact Or.inl (by rw [release_of_lookup_ne_found env h (by simp [hlk])])
  · exact Or.inr (by rw [release_of_lookup_found env h hlk])

theorem eventHandle_of_mem_release (env : Env) (h : String) (e : Event)
    (he : e ∈ (release env h).1) : eventHandle e = some h := by
  rcases release_fst_cases env h with hc | hc <;> rw [hc] at he <;>
    simp at he <;> rcases he with rfl | he <;>
    first
      | rfl
      | (rcases he with rfl | he <;>
          first | rfl | (rcases he with rfl | rfl <;> rfl))

theorem releaseCall_mem_release (env : Env) (h h' : String) :
    Event.releaseCall h' ∈ (release env h).1 ↔ h' = h := by
  constructor
  · intro hm
    have := eventHandle_of_mem_release env h _ hm
    simpa [eventHandle] using this
  · rintro rfl
    rcases release_fst_cases env h' with hc | hc <;> rw [hc] <;> simp

theorem releasedSeq_append (a b : List Event) :
    releasedSeq (a ++ b) = releasedSeq a ++ releasedSeq b := by
  simp [releasedSeq]

theorem releasedSeq_release (env : Env) (h : String) :
    releasedSeq (release env h).1 = [h] := by
  rcases release_fst_cases env h with hc | hc <;> rw [hc] <;>
    simp [releasedSeq]

theorem le_maxBuild_foldl (g : List SavedContainer) :
    ∀ acc : Int,
      acc ≤ g.foldl (fun a c => if c.buildID > a then c.buildID else a) acc := by
  induction g with
  | nil => intro acc; simp
  | cons d rest ih =>
    intro acc
    refine le_trans ?_ (ih _)
    by_cases hd : d.buildID > acc <;> simp [hd] <;> omega

theorem le_maxBuild_foldl_mem (g : List SavedContainer) (c : SavedContainer)
    (hc : c ∈ g) :
    ∀ acc : Int,
      c.buildID ≤
        g.foldl (fun a c => if c.buildID > a then c.buildID else a) acc := by
  induction g with
  | nil => cases hc
  | cons d rest ih =>
    intro acc
    rcases List.mem_cons.mp hc with rfl | hc
    · refine le_trans ?_ (le_maxBuild_foldl rest _)
      by_cases hd : c.buildID > acc <;> simp [hd] <;> omega
    · exact ih hc _

theorem le_maxBuild (g : List SavedContainer) (c : SavedContainer)
    (hc : c ∈ g) : c.buildID ≤ maxBuild g :=
  le_maxBuild_foldl_mem g c hc (-1)

theorem maxBuild_foldl_attained (g : List SavedContainer) :
    ∀ acc : Int,
      g.foldl (fun a c => if c.buildID > a then c.buildID else a) acc = acc ∨
      ∃ c ∈ g, g.foldl (fun a c => if c.buildID > a then c.buildID else a) acc
        = c.buildID := by
  induction g with
  | nil => intro acc; exact Or.inl rfl
  | cons d rest ih =>
    intro acc
    by_cases hd : d.buildID > acc
    · simp only [List.foldl_cons, if_pos hd]
      rcases ih d.buildID with h | ⟨c, hc, h⟩
      · exact Or.inr ⟨d, by simp, h⟩
      · exact Or.inr ⟨c, by simp [hc], h⟩
    · simp only [List.foldl_cons, if_neg hd]
      rcases ih acc with h | ⟨c, hc, h⟩
      · exact Or.inl h
      · exact Or.inr ⟨c, by simp [hc], h⟩

theorem maxBuild_attained (g : List SavedContainer) (c : SavedContainer)
    (hc : c ∈ g) (hpos : 0 < c.buildID) :
    ∃ d ∈ g, maxBuild g = d.buildID := by
  rcases maxBuild_foldl_attained g (-1) with h | h
  · exfalso
    have := le_maxBuild g c hc
    unfold maxBuild at this
    omega
  · exact h

/-- The successful aggregate, read as an explicit `Option`: `none` when
the job has no entry (the spec treats this as "no success on record"). -/
def specSuccEntry (m : List (Int × Int)) (k : Int) : Option Int :=
  match m.find? (fun p => p.1 == k) with
  | some p => some p.2
  | none => none

theorem lookupD_eq_specSuccEntry (m : List (Int × Int)) (k : Int) :
    lookupD m k = (specSuccEntry m k).getD 0 := by
  unfold lookupD specSuccEntry
  cases m.find? (fun p => p.1 == k) <;> rfl

end ContainerReaper

namespace ContainerReaper

/-- The classification `buildFailedMap` applies to one unsuccessful
container: `some jobID` when it joins the job's group, `none` when any of
the stale-by-configuration or unresolvable-provenance checks fires. -/
def acceptsContainer (env : Env) (c : SavedContainer) : Option Int :=
  if env.buildWithIDOk c.pipelineID then
    match env.getConfig c.pipelineID with
    | .found jobs =>
      if jobs.all (fun j => j ≠ c.jobName) then none
      else
        match env.resolve c.buildID with
        | .found jobID => some jobID
        | .error => none
        | .notFound => none
    | .error => none
    | .notFound => none
  else none

theorem buildFailedMapAux_cons (env : Env) (c : SavedContainer)
    (rest : List SavedContainer) (m : List (Int × List SavedContainer)) :
    buildFailedMapAux env (c :: rest) m =
      match acceptsContainer env c with
      | some jobID => buildFailedMapAux env rest (addToGroup m jobID c)
      | none =>
        ((release env c.handle).1 ++ (buildFailedMapAux env rest m).1,
          (buildFailedMapAux env rest m).2) := by
  conv_lhs => rw [buildFailedMapAux.eq_def]
  unfold acceptsContainer
  by_cases hok : env.buildWithIDOk c.pipelineID
  · cases hcfg : env.getConfig c.pipelineID with
    | found jobs =>
      by_cases hexp : (jobs.all fun j => decide (j ≠ c.jobName)) = true
      · simp only [hok, hcfg, if_true]
        rw [if_pos hexp, if_pos hexp]
      · simp only [hok, hcfg, if_true]
        rw [if_neg hexp, if_neg hexp]
        cases hres : env.resolve c.buildID <;> simp [hres]
    | error => simp [hok, hcfg]
    | notFound => simp [hok, hcfg]
  · simp [hok]

theorem buildSuccessMapAux_fst (env : Env) (cs : List SavedContainer) :
    ∀ m, (buildSuccessMapAux env cs m).1 =
      ((cs.filter (fun d => resolveFails env d)).map
        (fun d => (release env d.handle).1)).flatten := by
  induction cs with
  | nil => intro m; rfl
  | cons c rest ih =>
    intro m
    unfold buildSuccessMapAux
    cases hres : env.resolve c.buildID <;>
      simp [resolveFails, hres, List.filter_cons, ih]

theorem buildFailedMapAux_fst (env : Env) (cs : List SavedContainer) :
    ∀ m, (buildFailedMapAux env cs m).1 =
      ((cs.filter (fun d => (acceptsContainer env d).isNone)).map
        (fun d => (release env d.handle).1)).flatten := by
  induction cs with
  | nil => intro m; rfl
  | cons c rest ih =>
    intro m
    rw [buildFailedMapAux_cons]
    cases hacc : acceptsContainer env c <;>
      simp [hacc, List.filter_cons, ih]

theorem releaseAll_eq_flatten (env : Env) (cs : List SavedContainer) :
    releaseAll env cs =
      (cs.map (fun d => (release env d.handle).1)).flatten := by
  induction cs with
  | nil => rfl
  | cons c rest ih => simp [releaseAll, ih]

theorem processGroup_eq_flatten (env : Env) (sm : List (Int × Int))
    (jobID maxFailed : Int) (g : List SavedContainer) :
    processGroup env sm jobID maxFailed g =
      ((g.filter (fun d =>
          decide (lookupD sm jobID > maxFailed ∨ maxFailed > d.buildID))).map
        (fun d => (release env d.handle).1)).flatten := by
  induction g with
  | nil => rfl
  | cons c rest ih =>
    unfold processGroup
    by_cases hc : lookupD sm jobID > maxFailed ∨ maxFailed > c.buildID <;>
      simp [hc, List.filter_cons, ih]

theorem releaseCall_mem_processGroup (env : Env) (sm : List (Int × Int))
    (jobID maxFailed : Int) (g : List SavedContainer) (h : String) :
    Event.releaseCall h ∈ processGroup env sm jobID maxFailed g ↔
      ∃ d ∈ g, d.handle = h ∧
        (lookupD sm jobID > maxFailed ∨ maxFailed > d.buildID) := by
  rw [processGroup_eq_flatten]
  rw [List.mem_flatten]
  constructor
  · rintro ⟨l, hl, hm⟩
    rw [List.mem_map] at hl
    rcases hl with ⟨d, hd, rfl⟩
    rw [List.mem_filter] at hd
    refine ⟨d, hd.1, ?_, by simpa using hd.2⟩
    exact ((releaseCall_mem_release env d.handle h).mp hm).symm
  · rintro ⟨d, hd, hh, hcond⟩
    refine ⟨(release env d.handle).1, ?_, ?_⟩
    · rw [List.mem_map]
      exact ⟨d, List.mem_filter.mpr ⟨hd, by simpa using hcond⟩, rfl⟩
    · rw [releaseCall_mem_release]
      exact hh.symm

theorem mem_addToGroup (m : List (Int × List SavedContainer)) (k : Int)
    (c : SavedContainer) (p : Int × List SavedContainer)
    (d : SavedContainer) (hp : p ∈ addToGroup m k c) (hd : d ∈ p.2) :
    (∃ q ∈ m, q.1 = p.1 ∧ d ∈ q.2) ∨ (d = c ∧ p.1 = k) := by
  induction m with
  | nil =>
    simp [addToGroup] at hp
    subst hp
    simp at hd
    exact Or.inr ⟨hd, rfl⟩
  | cons q rest ih =>
    unfold addToGroup at hp
    by_cases hq : q.1 = k
    · simp [hq] at hp
      rcases hp with rfl | hp
      · simp at hd
        rcases hd with hd | rfl
        · exact Or.inl ⟨q, by simp, by simp [hq], hd⟩
        · exact Or.inr ⟨rfl, rfl⟩
      · exact Or.inl ⟨p, by simp [hp], rfl, hd⟩
    · simp [hq] at hp
      rcases hp with rfl | hp
      · exact Or.inl ⟨p, by simp, rfl, hd⟩
      · rcases ih hp with ⟨q', hq', h1, h2⟩ | h
        · exact Or.inl ⟨q', by simp [hq'], h1, h2⟩
        · exact Or.inr h

theorem buildFailedMapAux_snd_mem (env : Env) (cs : List SavedContainer) :
    ∀ m p d, p ∈ (buildFailedMapAux env cs m).2 → d ∈ p.2 →
      (∃ q ∈ m, q.1 = p.1 ∧ d ∈ q.2) ∨
        (d ∈ cs ∧ acceptsContainer env d = some p.1) := by
  induction cs with
  | nil =>
    intro m p d hp hd
    exact Or.inl ⟨p, hp, rfl, hd⟩
  | cons c rest ih =>
    intro m p d hp hd
    rw [buildFailedMapAux_cons] at hp
    cases hacc : acceptsContainer env c with
    | some jobID =>
      rw [hacc] at hp
      rcases ih _ p d hp hd with ⟨q, hq, h1, h2⟩ | ⟨h1, h2⟩
      · rcases mem_addToGroup m jobID c q d hq h2 with ⟨q', hq', h3, h4⟩ | ⟨h3, h4⟩
        · exact Or.inl ⟨q', hq', h3.trans h1, h4⟩
        · subst h3
          exact Or.inr ⟨by simp, by rw [hacc, ← h1, h4]⟩
      · exact Or.inr ⟨by simp [h1], h2⟩
    | none =>
      rw [hacc] at hp
      simp only at hp
      rcases ih m p d hp hd with h | ⟨h1, h2⟩
      · exact Or.inl h
      · exact Or.inr ⟨by simp [h1], h2⟩

/-- Members of a group of `buildFailedMap fc` are members of `fc`,
classified into exactly that group's job. -/
theorem buildFailedMap_snd_mem (env : Env) (fc : List SavedContainer)
    (p : Int × List SavedContainer) (d : SavedContainer)
    (hp : p ∈ (buildFailedMap env fc).2) (hd : d ∈ p.2) :
    d ∈ fc ∧ acceptsContainer env d = some p.1 := by
  rcases buildFailedMapAux_snd_mem env fc [] p d hp hd with ⟨q, hq, _⟩ | h
  · simp at hq
  · exact h

end ContainerReaper

namespace ContainerReaper

theorem mem_setEntry (m : List (Int × Int)) (k v : Int) (p : Int × Int)
    (hp : p ∈ setEntry m k v) : p ∈ m ∨ p = (k, v) := by
  induction m with
  | nil =>
    simp [setEntry] at hp
    exact Or.inr (by simp [hp])
  | cons q rest ih =>
    unfold setEntry at hp
    by_cases hq : q.1 = k
    · rw [if_pos (by simp [hq])] at hp
      rcases List.mem_cons.mp hp with rfl | hp
      · exact Or.inr rfl
      · exact Or.inl (List.mem_cons_of_mem q hp)
    · rw [if_neg (by simp [hq])] at hp
      rcases List.mem_cons.mp hp with rfl | hp
      · exact Or.inl (List.mem_cons_self _ _)
      · rcases ih hp with h | h
        · exact Or.inl (List.mem_cons_of_mem q h)
        · exact Or.inr h

theorem buildSuccessMapAux_snd_mem (env : Env) (cs : List SavedContainer) :
    ∀ m p, p ∈ (buildSuccessMapAux env cs m).2 →
      p ∈ m ∨ ∃ d ∈ cs, d.buildID = p.2 ∧ env.resolve d.buildID = .found p.1 := by
  induction cs with
  | nil => intro m p hp; exact Or.inl hp
  | cons c rest ih =>
    intro m p hp
    unfold buildSuccessMapAux at hp
    cases hres : env.resolve c.buildID with
    | found jobID =>
      rw [hres] at hp
      simp only at hp
      by_cases hgt : c.buildID > lookupD m jobID
      · rw [if_pos hgt] at hp
        rcases ih _ p hp with hm | ⟨d, hd, h1, h2⟩
        · rcases mem_setEntry m jobID c.buildID p hm with hm | rfl
          · exact Or.inl hm
          · exact Or.inr ⟨c, by simp, rfl, by rw [hres]⟩
        · exact Or.inr ⟨d, by simp [hd], h1, h2⟩
      · rw [if_neg hgt] at hp
        rcases ih _ p hp with hm | ⟨d, hd, h1, h2⟩
        · exact Or.inl hm
        · exact Or.inr ⟨d, by simp [hd], h1, h2⟩
    | error =>
      rw [hres] at hp
      rcases ih _ p hp with hm | ⟨d, hd, h1, h2⟩
      · exact Or.inl hm
      · exact Or.inr ⟨d, by simp [hd], h1, h2⟩
    | notFound =>
      rw [hres] at hp
      rcases ih _ p hp with hm | ⟨d, hd, h1, h2⟩
      · exact Or.inl hm
      · exact Or.inr ⟨d, by simp [hd], h1, h2⟩

/-- Every entry of the successful aggregate is justified by a candidate
container whose build resolved to that job. -/
theorem buildSuccessMap_snd_mem (env : Env) (sc : List SavedContainer)
    (p : Int × Int) (hp : p ∈ (buildSuccessMap env sc).2) :
    ∃ d ∈ sc, d.buildID = p.2 ∧ env.resolve d.buildID = .found p.1 := by
  rcases buildSuccessMapAux_snd_mem env sc [] p hp with hm | h
  · simp at hm
  · exact h

theorem specSuccEntry_some_mem (m : List (Int × Int)) (k v : Int)
    (h : specSuccEntry m k = some v) : (k, v) ∈ m := by
  unfold specSuccEntry at h
  cases hf : m.find? (fun p => p.1 == k) with
  | none => rw [hf] at h; cases h
  | some p =>
    rw [hf] at h
    have hp := List.mem_of_find?_eq_some hf
    have hk := List.find?_some hf
    simp at hk h
    have : p = (k, v) := by
      obtain ⟨p1, p2⟩ := p
      simp at hk h
      simp [hk, h]
    rw [this] at hp
    exact hp

theorem eventHandle_of_mem_releases (env : Env) (l : List SavedContainer)
    (e : Event)
    (he : e ∈ (l.map (fun d => (release env d.handle).1)).flatten) :
    ∃ d ∈ l, eventHandle e = some d.handle := by
  rw [List.mem_flatten] at he
  rcases he with ⟨tr, htr, hm⟩
  rw [List.mem_map] at htr
  rcases htr with ⟨d, hd, rfl⟩
  exact ⟨d, hd, eventHandle_of_mem_release env d.handle e hm⟩

theorem mem_processGroups (env : Env) (sm : List (Int × Int))
    (groups : List (Int × List SavedContainer)) (e : Event)
    (he : e ∈ processGroups env sm groups) :
    ∃ p ∈ groups, ∃ d ∈ p.2, eventHandle e = some d.handle := by
  induction groups with
  | nil => cases he
  | cons p rest ih =>
    obtain ⟨jid, g⟩ := p
    unfold processGroups at he
    rw [List.mem_append] at he
    rcases he with he | he
    · rw [processGroup_eq_flatten] at he
      rcases eventHandle_of_mem_releases env _ e he with ⟨d, hd, hh⟩
      rw [List.mem_filter] at hd
      exact ⟨(jid, g), by simp, d, hd.1, hh⟩
    · rcases ih he with ⟨q, hq, d, hd, hh⟩
      exact ⟨q, List.mem_cons_of_mem _ hq, d, hd, hh⟩

theorem counts_release_found (env : Env) (h : String)
    (hl : env.lookup h = .found) :
    (release env h).1.count (.releaseCall h) = 1 ∧
    (release env h).1.count (.workerLookup h) = 1 ∧
    (release env h).1.count (.workerTTL h) = 1 ∧
    (release env h).1.count (.dbUpdate h) = 1 := by
  rw [release_of_lookup_found env h hl]
  refine ⟨?_, ?_, ?_, ?_⟩ <;> simp [List.count_cons]

theorem count_release_zero (env : Env) (h h' : String) (e : Event)
    (hh : eventHandle e = some h) (hne : h ≠ h') :
    (release env h').1.count e = 0 := by
  rw [List.count_eq_zero]
  intro hm
  have := eventHandle_of_mem_release env h' e hm
  rw [hh] at this
  exact hne (Option.some.inj this)

/-- Recognizer for registry candidate-set queries in a trace. -/
def isQueryEvent : Event → Bool
  | .querySuccessful => true
  | .queryUnsuccessful => true
  | .queryOrphan => true
  | _ => false

theorem filter_isQuery_release (env : Env) (h : String) :
    (release env h).1.filter isQueryEvent = [] := by
  rcases release_fst_cases env h with hc | hc <;> rw [hc] <;>
    rfl

theorem filter_isQuery_flattenReleases (env : Env)
    (l : List SavedContainer) :
    ((l.map (fun d => (release env d.handle).1)).flatten).filter
      isQueryEvent = [] := by
  induction l with
  | nil => rfl
  | cons c rest ih =>
    simp only [List.map_cons, List.flatten_cons, List.filter_append, ih,
      filter_isQuery_release, List.nil_append]

theorem filter_isQuery_processGroups (env : Env) (sm : List (Int × Int))
    (groups : List (Int × List SavedContainer)) :
    (processGroups env sm groups).filter isQueryEvent = [] := by
  induction groups with
  | nil => rfl
  | cons p rest ih =>
    obtain ⟨jid, g⟩ := p
    unfold processGroups
    rw [List.filter_append, ih, processGroup_eq_flatten,
      filter_isQuery_flattenReleases, List.nil_append]

theorem run_fst (env : Env) (sc fc : List SavedContainer)
    (hs : env.successQ = some sc) (hf : env.failQ = some fc) :
    (run env).1 =
      Event.querySuccessful ::
        (releaseAll env sc ++ [Event.queryUnsuccessful] ++
          (buildFailedMap env fc).1 ++ (buildSuccessMap env sc).1 ++
          processGroups env (buildSuccessMap env sc).2
            (buildFailedMap env fc).2) := by
  simp [run, hs, hf]

theorem run_fst_of_successQ_none (env : Env) (fc : List SavedContainer)
    (hs : env.successQ = none) (hf : env.failQ = some fc) :
    (run env).1 =
      Event.querySuccessful :: Event.queryUnsuccessful ::
        ((buildFailedMap env fc).1 ++
          processGroups env [] (buildFailedMap env fc).2) := by
  simp [run, hs, hf, buildSuccessMap, buildSuccessMapAux]

end ContainerReaper

namespace ContainerReaper

/-- C4: `Run` returns an error if and only if the unsuccessful-build
candidate query fails.  A successful-build candidate query failure is
absorbed (the pass continues and returns nil), and no per-container
release failure — whatever the worker or registry responses — is ever
propagated as the return value of `Run`. -/
theorem C4_run_error_iff_unsuccessful_query_fails (env : Env) :
    (run env).2 = true ↔ env.failQ = none := by
  cases hs : env.successQ <;> cases hf : env.failQ <;> simp [run, hs, hf]

/-- C5: the release primitive performs its two steps in order — the
worker-side TTL instruction strictly before the registry expiry update
(first conjunct: the only possible traces); a worker lookup error or miss
aborts this container's release leaving the registry untouched (second
conjunct: failure result, no registry mutation, and no worker TTL either);
a registry mutation failure after the worker TTL was applied is surfaced
as this container's release error while the worker-side change stays in
the trace (third conjunct). -/
theorem C5_release_two_step (env : Env) (h : String) :
    ((release env h).1 = [.releaseCall h, .workerLookup h] ∨
      (release env h).1 =
        [.releaseCall h, .workerLookup h, .workerTTL h, .dbUpdate h]) ∧
    (env.lookup h ≠ .found →
      (release env h).2 = false ∧ Event.dbUpdate h ∉ (release env h).1 ∧
        Event.workerTTL h ∉ (release env h).1) ∧
    (env.lookup h = .found → env.updateOk h = false →
      (release env h).2 = false ∧ Event.workerTTL h ∈ (release env h).1 ∧
        Event.dbUpdate h ∈ (release env h).1) := by
  refine ⟨release_fst_cases env h, ?_, ?_⟩
  · intro hne
    rw [release_of_lookup_ne_found env h hne]
    simp
  · intro hfnd hup
    rw [release_of_lookup_found env h hfnd]
    simp [hup]

/-- Environment witnessing C5: the worker lookup succeeds and the
registry mutation fails. -/
def envW : Env :=
  { successQ := some []
    failQ := some []
    orphanQ := some []
    resolve := fun _ => .notFound
    buildWithIDOk := fun _ => true
    getConfig := fun _ => .notFound
    lookup := fun _ => .found
    updateOk := fun _ => false }

theorem C5_release_two_step_witness :
    envW.lookup "w" = .found ∧ envW.updateOk "w" = false ∧
      (release envW "w").2 = false ∧
      Event.workerTTL "w" ∈ (release envW "w").1 :=
  ⟨by decide, by decide,
    ((C5_release_two_step envW "w").2.2 (by decide) (by decide)).1,
    ((C5_release_two_step envW "w").2.2 (by decide) (by decide)).2.1⟩

/-- An orphan candidate container for the C8 counterexample. -/
def cOrph : SavedContainer := ⟨"orph", 42, 1, "j"⟩

/-- Environment for the C8 counterexample: the orphan candidate set is
nonempty and every collaborator responds successfully. -/
def envC8 : Env :=
  { successQ := some []
    failQ := some []
    orphanQ := some [cOrph]
    resolve := fun _ => .found 7
    buildWithIDOk := fun _ => true
    getConfig := fun _ => .found ["j"]
    lookup := fun _ => .found
    updateOk := fun _ => true }

/-- C8 counterexample: with an orphan container on record, `Run` never
issues the orphan candidate query and never releases the orphan, so a
pass does not pull three candidate sets nor dispose of orphans. -/
theorem C8_counterexample :
    envC8.orphanQ = some [cOrph] ∧
    Event.queryOrphan ∉ (run envC8).1 ∧
    Event.releaseCall "orph" ∉ (run envC8).1 := by
  decide

theorem filter_isQuery_releaseAll (env : Env) (sc : List SavedContainer) :
    (releaseAll env sc).filter isQueryEvent = [] := by
  rw [releaseAll_eq_flatten]
  exact filter_isQuery_flattenReleases env sc

theorem filter_isQuery_buildFailedMap (env : Env)
    (fc : List SavedContainer) :
    (buildFailedMap env fc).1.filter isQueryEvent = [] := by
  rw [buildFailedMap, buildFailedMapAux_fst]
  exact filter_isQuery_flattenReleases env _

theorem filter_isQuery_buildSuccessMap (env : Env)
    (sc : List SavedContainer) :
    (buildSuccessMap env sc).1.filter isQueryEvent = [] := by
  rw [buildSuccessMap, buildSuccessMapAux_fst]
  exact filter_isQuery_flattenReleases env _

/-- C8 (amended): a pass issues exactly two candidate-set queries — the
successful-build query then the unsuccessful-build query.  The orphan
query is declared on the registry interface (`Env.orphanQ`) but `Run`
never invokes it, and no orphan disposal happens. -/
theorem C8_amended_two_queries (env : Env) :
    (run env).1.filter isQueryEvent =
      [Event.querySuccessful, Event.queryUnsuccessful] ∧
    Event.queryOrphan ∉ (run env).1 := by
  have hq : (run env).1.filter isQueryEvent =
      [Event.querySuccessful, Event.queryUnsuccessful] := by
    cases hs : env.successQ with
    | none =>
      cases hf : env.failQ with
      | none => simp [run, hs, hf, isQueryEvent]
      | some fc =>
        rw [run_fst_of_successQ_none env fc hs hf]
        simp [List.filter_cons, List.filter_append,
          filter_isQuery_buildFailedMap, filter_isQuery_processGroups,
          isQueryEvent]
    | some sc =>
      cases hf : env.failQ with
      | none =>
        simp [run, hs, hf, List.filter_cons, List.filter_append,
          filter_isQuery_releaseAll, isQueryEvent]
      | some fc =>
        rw [run_fst env sc fc hs hf]
        simp [List.filter_cons, List.filter_append,
          filter_isQuery_releaseAll, filter_isQuery_buildFailedMap,
          filter_isQuery_buildSuccessMap, filter_isQuery_processGroups,
          isQueryEvent]
  refine ⟨hq, fun hm => ?_⟩
  have : Event.queryOrphan ∈ (run env).1.filter isQueryEvent :=
    List.mem_filter.mpr ⟨hm, rfl⟩
  rw [hq] at this
  simp at this

end ContainerReaper

namespace ContainerReaper

/-- The stale-by-configuration conditions of C3: pipeline cannot be
built, config fetch errors or misses, or the job name is absent from the
configured jobs. -/
def configRejected (env : Env) (c : SavedContainer) : Prop :=
  env.buildWithIDOk c.pipelineID = false ∨
  env.getConfig c.pipelineID = .error ∨
  env.getConfig c.pipelineID = .notFound ∨
  ∃ jobs, env.getConfig c.pipelineID = .found jobs ∧ c.jobName ∉ jobs

theorem acceptsContainer_eq_none_of_configRejected (env : Env)
    (c : SavedContainer) (h : configRejected env c) :
    acceptsContainer env c = none := by
  unfold acceptsContainer
  by_cases hok : env.buildWithIDOk c.pipelineID
  · rcases h with h | h | h | ⟨jobs, hj, hn⟩
    · rw [h] at hok; cases hok
    · simp [hok, h]
    · simp [hok, h]
    · simp [hok, hj]
      intro hmem
      exact absurd hmem hn
  · simp [hok]

/-- C3: an unsuccessful-build candidate whose pipeline cannot be built,
whose configuration fetch errors or misses, or whose job name is absent
from the pipeline's current configuration, is released immediately by
`buildFailedMap` and never joins any per-job group — for every resolver
and success history, i.e. independent of build-outcome comparison. -/
theorem C3_stale_by_configuration_released (env : Env)
    (fc : List SavedContainer) (c : SavedContainer) (hc : c ∈ fc)
    (hrej : configRejected env c) :
    Event.releaseCall c.handle ∈ (buildFailedMap env fc).1 ∧
    ∀ p ∈ (buildFailedMap env fc).2, c ∉ p.2 := by
  have hn := acceptsContainer_eq_none_of_configRejected env c hrej
  constructor
  · rw [buildFailedMap, buildFailedMapAux_fst, List.mem_flatten]
    refine ⟨(release env c.handle).1, ?_, ?_⟩
    · rw [List.mem_map]
      exact ⟨c, List.mem_filter.mpr ⟨hc, by simp [hn]⟩, rfl⟩
    · exact (releaseCall_mem_release env c.handle c.handle).mpr rfl
  · intro p hp hmem
    have hj := (buildFailedMap_snd_mem env fc p c hp hmem).2
    rw [hn] at hj
    cases hj

/-- A container whose job was removed from its pipeline configuration,
for the C3 witness. -/
def cGone : SavedContainer := ⟨"hGone", 5, 3, "jgone"⟩

/-- Environment for the C3 witness: the configuration is found but no
longer lists the container's job. -/
def envC3 : Env :=
  { successQ := some []
    failQ := some [cGone]
    orphanQ := some []
    resolve := fun _ => .found 7
    buildWithIDOk := fun _ => true
    getConfig := fun _ => .found ["ja", "jb"]
    lookup := fun _ => .found
    updateOk := fun _ => true }

theorem C3_stale_by_configuration_released_witness :
    Event.releaseCall "hGone" ∈ (buildFailedMap envC3 [cGone]).1 :=
  (C3_stale_by_configuration_released envC3 [cGone] cGone (by decide)
    (Or.inr (Or.inr (Or.inr ⟨["ja", "jb"], by decide, by decide⟩)))).1

/-- A successful-build candidate whose build does not resolve, for the
C6 witness. -/
def cSfail : SavedContainer := ⟨"hSfail", 99, 1, "j"⟩

/-- Environment for the C6 witness. -/
def envC6 : Env :=
  { successQ := some [cSfail]
    failQ := some []
    orphanQ := some []
    resolve := fun _ => .notFound
    buildWithIDOk := fun _ => true
    getConfig := fun _ => .found ["j"]
    lookup := fun _ => .found
    updateOk := fun _ => true }

/-- C6: when the successful-build query returns a candidate set, every
container in it — including any whose build-to-job resolution errors or
misses — has the release operation invoked on it during the pass, and
every entry of the `jobID → highestSuccessfulBuildID` aggregate is
justified by a container whose build did resolve, so resolution-failure
containers contribute no entry. -/
theorem C6_successful_released_unconditionally (env : Env)
    (sc : List SavedContainer) (hs : env.successQ = some sc) :
    (∀ c ∈ sc, Event.releaseCall c.handle ∈ (run env).1) ∧
    (∀ p ∈ (buildSuccessMap env sc).2,
      ∃ d ∈ sc, d.buildID = p.2 ∧ env.resolve d.buildID = .found p.1) := by
  constructor
  · intro c hc
    have hmem : Event.releaseCall c.handle ∈ releaseAll env sc := by
      rw [releaseAll_eq_flatten, List.mem_flatten]
      exact ⟨(release env c.handle).1, List.mem_map.mpr ⟨c, hc, rfl⟩,
        (releaseCall_mem_release env c.handle c.handle).mpr rfl⟩
    cases hf : env.failQ with
    | none =>
      simp only [run, hs, hf]
      exact List.mem_cons_of_mem _ (List.mem_append_left _ hmem)
    | some fc =>
      rw [run_fst env sc fc hs hf]
      refine List.mem_cons_of_mem _ ?_
      rw [List.append_assoc, List.append_assoc, List.append_assoc]
      exact List.mem_append_left _ hmem
  · exact fun p hp => buildSuccessMap_snd_mem env sc p hp

theorem C6_successful_released_unconditionally_witness :
    Event.releaseCall "hSfail" ∈ (run envC6).1 :=
  (C6_successful_released_unconditionally envC6 [cSfail] rfl).1 cSfail
    (by decide)

end ContainerReaper

namespace ContainerReaper

/-- C9: when the successful-build query fails but the unsuccessful query
succeeds, the pass still classifies the unsuccessful containers, against
an empty successful aggregate: the trace is exactly the failed-side
processing driven by the empty map (so no successful-build container is
released that pass), the aggregate builder maps the nil candidate list to
the empty mapping, and with the empty aggregate every per-job decision
releases only on the later-failed-attempt ground, never on the
job-has-since-succeeded ground. -/
theorem C9_successQ_failure_degrades (env : Env)
    (fc : List SavedContainer) (hs : env.successQ = none)
    (hf : env.failQ = some fc) :
    (run env).1 =
      Event.querySuccessful :: Event.queryUnsuccessful ::
        ((buildFailedMap env fc).1 ++
          processGroups env [] (buildFailedMap env fc).2) ∧
    buildSuccessMap env [] = ([], []) ∧
    (∀ jobID (group : List SavedContainer) (c : SavedContainer),
      c ∈ group → 0 < c.buildID →
      (Event.releaseCall c.handle ∈
          processGroup env [] jobID (maxBuild group) group ↔
        ∃ d ∈ group, d.handle = c.handle ∧ maxBuild group > d.buildID)) := by
  refine ⟨run_fst_of_successQ_none env fc hs hf, rfl, ?_⟩
  intro jobID group c hc hpos
  rw [releaseCall_mem_processGroup]
  have hmb : 0 < maxBuild group :=
    lt_of_lt_of_le hpos (le_maxBuild group c hc)
  constructor
  · rintro ⟨d, hd, hh, hcond | hcond⟩
    · have hl : lookupD ([] : List (Int × Int)) jobID = 0 := rfl
      rw [hl] at hcond
      omega
    · exact ⟨d, hd, hh, hcond⟩
  · rintro ⟨d, hd, hh, hcond⟩
    exact ⟨d, hd, hh, Or.inr hcond⟩

/-- Containers for the C9 witness: two failed builds of the same job. -/
def cW10 : SavedContainer := ⟨"w10", 10, 1, "j"⟩

def cW12 : SavedContainer := ⟨"w12", 12, 1, "j"⟩

/-- Environment for the C9 witness: the successful-build query errors. -/
def envC9 : Env :=
  { successQ := none
    failQ := some [cW10, cW12]
    orphanQ := some []
    resolve := fun _ => .found 7
    buildWithIDOk := fun _ => true
    getConfig := fun _ => .found ["j"]
    lookup := fun _ => .found
    updateOk := fun _ => true }

theorem C9_successQ_failure_degrades_witness :
    Event.releaseCall "w10" ∈
      processGroup envC9 [] 7 (maxBuild [cW10, cW12]) [cW10, cW12] :=
  ((C9_successQ_failure_degrades envC9 [cW10, cW12] rfl rfl).2.2 7
      [cW10, cW12] cW10 (by decide) (by decide)).mpr
    ⟨cW10, by decide, by decide, by decide⟩

/-- First unsuccessful container of the C7 counterexample (pipeline 1). -/
def cA7 : SavedContainer := ⟨"h10", 10, 1, "j"⟩

/-- Second unsuccessful container of the C7 counterexample (pipeline 2),
with the later failed build. -/
def cB7 : SavedContainer := ⟨"h12", 12, 2, "j"⟩

/-- C7 counterexample, healthy side: every collaborator succeeds. -/
def envC7ok : Env :=
  { successQ := some []
    failQ := some [cA7, cB7]
    orphanQ := some []
    resolve := fun _ => .found 7
    buildWithIDOk := fun _ => true
    getConfig := fun _ => .found ["j"]
    lookup := fun _ => .found
    updateOk := fun _ => true }

/-- C7 counterexample, failing side: identical except that the config
fetch for h12's pipeline (id 2) errors — a per-container failure of
h12's processing. -/
def envC7bad : Env :=
  { envC7ok with
    getConfig := fun p => if p == 2 then .error else .found ["j"] }

/-- C7 counterexample: the two environments differ only in the config
fetch of h12's pipeline.  With it healthy, h10 is released (superseded by
failed build 12); with it failing, h12 is dropped from the job group and
h10 is retained — so a pipeline/config failure of one container changes a
sibling's release decision, refuting the claim that the decision for one
container is unaffected by a per-container failure of the other. -/
theorem C7_counterexample :
    Event.releaseCall "h10" ∈ (run envC7ok).1 ∧
    Event.releaseCall "h10" ∉ (run envC7bad).1 ∧
    Event.releaseCall "h12" ∈ (run envC7bad).1 := by
  decide

end ContainerReaper

namespace ContainerReaper

theorem releasedSeq_flattenReleases (env : Env)
    (l : List SavedContainer) :
    releasedSeq ((l.map (fun d => (release env d.handle).1)).flatten) =
      l.map (fun d => d.handle) := by
  induction l with
  | nil => rfl
  | cons c rest ih =>
    rw [List.map_cons, List.flatten_cons, releasedSeq_append,
      releasedSeq_release, List.map_cons, ← ih]
    rfl

theorem releasedSeq_processGroups (env : Env) (sm : List (Int × Int))
    (groups : List (Int × List SavedContainer)) :
    releasedSeq (processGroups env sm groups) =
      (groups.map (fun p =>
        ((p.2.filter (fun d =>
          decide (lookupD sm p.1 > maxBuild p.2 ∨
            maxBuild p.2 > d.buildID))).map
          (fun d => d.handle)))).flatten := by
  induction groups with
  | nil => rfl
  | cons p rest ih =>
    obtain ⟨jid, g⟩ := p
    unfold processGroups
    rw [releasedSeq_append, ih, processGroup_eq_flatten,
      releasedSeq_flattenReleases, List.map_cons, List.flatten_cons]

theorem acceptsContainer_congr (env env' : Env)
    (h3 : env.resolve = env'.resolve)
    (h4 : env.buildWithIDOk = env'.buildWithIDOk)
    (h5 : env.getConfig = env'.getConfig) (c : SavedContainer) :
    acceptsContainer env c = acceptsContainer env' c := by
  unfold acceptsContainer
  rw [h3, h4, h5]

theorem resolveFails_congr (env env' : Env)
    (h3 : env.resolve = env'.resolve) (c : SavedContainer) :
    resolveFails env c = resolveFails env' c := by
  unfold resolveFails
  rw [h3]

theorem buildSuccessMapAux_snd_congr (env env' : Env)
    (h3 : env.resolve = env'.resolve) (cs : List SavedContainer) :
    ∀ m, (buildSuccessMapAux env cs m).2 =
      (buildSuccessMapAux env' cs m).2 := by
  induction cs with
  | nil => intro m; rfl
  | cons c rest ih =>
    intro m
    unfold buildSuccessMapAux
    rw [← h3]
    cases hres : env.resolve c.buildID <;> simp only [hres] <;> exact ih _

theorem buildFailedMapAux_snd_congr (env env' : Env)
    (h3 : env.resolve = env'.resolve)
    (h4 : env.buildWithIDOk = env'.buildWithIDOk)
    (h5 : env.getConfig = env'.getConfig) (cs : List SavedContainer) :
    ∀ m, (buildFailedMapAux env cs m).2 =
      (buildFailedMapAux env' cs m).2 := by
  induction cs with
  | nil => intro m; rfl
  | cons c rest ih =>
    intro m
    rw [buildFailedMapAux_cons, buildFailedMapAux_cons,
      ← acceptsContainer_congr env env' h3 h4 h5 c]
    cases hacc : acceptsContainer env c <;> simp only [hacc] <;> exact ih _

theorem releasedSeq_cons_querySuccessful (tr : List Event) :
    releasedSeq (Event.querySuccessful :: tr) = releasedSeq tr := rfl

theorem releasedSeq_cons_queryUnsuccessful (tr : List Event) :
    releasedSeq (Event.queryUnsuccessful :: tr) = releasedSeq tr := rfl

theorem releasedSeq_singleton_queryUnsuccessful :
    releasedSeq [Event.queryUnsuccessful] = [] := rfl

theorem releasedSeq_releaseAll (env : Env) (sc : List SavedContainer) :
    releasedSeq (releaseAll env sc) = sc.map (fun d => d.handle) := by
  rw [releaseAll_eq_flatten, releasedSeq_flattenReleases]

theorem releasedSeq_buildFailedMap (env : Env) (fc : List SavedContainer) :
    releasedSeq (buildFailedMap env fc).1 =
      (fc.filter (fun d => (acceptsContainer env d).isNone)).map
        (fun d => d.handle) := by
  rw [buildFailedMap, buildFailedMapAux_fst, releasedSeq_flattenReleases]

theorem releasedSeq_buildSuccessMap (env : Env)
    (sc : List SavedContainer) :
    releasedSeq (buildSuccessMap env sc).1 =
      (sc.filter (fun d => resolveFails env d)).map (fun d => d.handle) := by
  rw [buildSuccessMap, buildSuccessMapAux_fst, releasedSeq_flattenReleases]

/-- C7 (amended): no per-container failure aborts the processing of
siblings, and release-phase failures — worker lookup and registry
mutation — of any container never affect which containers get release
invocations, nor the pass's return value: two passes whose environments
agree on the queries and on the classification collaborators (resolver,
pipeline lookup, config fetch) but differ arbitrarily in worker and
registry-mutation responses invoke release on exactly the same sequence
of handles.  (A classification-phase failure of one container can still
change a sibling's decision, as the counterexample shows.) -/
theorem C7_amended_release_phase_isolated (env env' : Env)
    (h1 : env.successQ = env'.successQ) (h2 : env.failQ = env'.failQ)
    (h3 : env.resolve = env'.resolve)
    (h4 : env.buildWithIDOk = env'.buildWithIDOk)
    (h5 : env.getConfig = env'.getConfig) :
    releasedSeq (run env).1 = releasedSeq (run env').1 ∧
      (run env).2 = (run env').2 := by
  have hrf : (fun d => resolveFails env d) = fun d => resolveFails env' d :=
    funext (resolveFails_congr env env' h3)
  have hacc : (fun d => (acceptsContainer env d).isNone) =
      fun d => (acceptsContainer env' d).isNone := by
    funext d
    rw [acceptsContainer_congr env env' h3 h4 h5 d]
  constructor
  · cases hs : env.successQ with
    | none =>
      cases hf : env.failQ with
      | none =>
        simp [run, hs, hf, ← h1, ← h2, releasedSeq]
      | some fc =>
        rw [run_fst_of_successQ_none env fc hs hf,
          run_fst_of_successQ_none env' fc (h1 ▸ hs) (h2 ▸ hf),
          releasedSeq_cons_querySuccessful,
          releasedSeq_cons_querySuccessful,
          releasedSeq_cons_queryUnsuccessful,
          releasedSeq_cons_queryUnsuccessful,
          releasedSeq_append, releasedSeq_append,
          releasedSeq_buildFailedMap, releasedSeq_buildFailedMap, hacc,
          releasedSeq_processGroups, releasedSeq_processGroups,
          buildFailedMap, buildFailedMap,
          buildFailedMapAux_snd_congr env env' h3 h4 h5 fc]
    | some sc =>
      cases hf : env.failQ with
      | none =>
        rw [show (run env).1 = Event.querySuccessful ::
            (releaseAll env sc ++ [Event.queryUnsuccessful]) by
              simp [run, hs, hf],
          show (run env').1 = Event.querySuccessful ::
            (releaseAll env' sc ++ [Event.queryUnsuccessful]) by
              simp [run, ← h1, ← h2, hs, hf],
          releasedSeq_cons_querySuccessful,
          releasedSeq_cons_querySuccessful,
          releasedSeq_append, releasedSeq_append,
          releasedSeq_releaseAll, releasedSeq_releaseAll]
      | some fc =>
        rw [run_fst env sc fc hs hf,
          run_fst env' sc fc (h1 ▸ hs) (h2 ▸ hf),
          releasedSeq_cons_querySuccessful,
          releasedSeq_cons_querySuccessful,
          releasedSeq_append, releasedSeq_append, releasedSeq_append,
          releasedSeq_append, releasedSeq_append, releasedSeq_append,
          releasedSeq_append, releasedSeq_append,
          releasedSeq_releaseAll, releasedSeq_releaseAll,
          releasedSeq_buildFailedMap, releasedSeq_buildFailedMap, hacc,
          releasedSeq_buildSuccessMap, releasedSeq_buildSuccessMap, hrf,
          releasedSeq_processGroups, releasedSeq_processGroups,
          buildFailedMap, buildFailedMap,
          buildFailedMapAux_snd_congr env env' h3 h4 h5 fc,
          buildSuccessMap, buildSuccessMap,
          buildSuccessMapAux_snd_congr env env' h3 sc]
  · cases hs : env.successQ <;> cases hf : env.failQ <;>
      simp [run, hs, hf, ← h1, ← h2]

/-- Environment pair for the C7 amended witness: same classification
responses, but on the primed side every worker lookup fails. -/
def envC7w : Env :=
  { successQ := some [cA7, cB7]
    failQ := some []
    orphanQ := some []
    resolve := fun _ => .found 7
    buildWithIDOk := fun _ => true
    getConfig := fun _ => .found ["j"]
    lookup := fun _ => .found
    updateOk := fun _ => true }

def envC7wBad : Env := { envC7w with lookup := fun _ => .error }

theorem C7_amended_release_phase_isolated_witness :
    releasedSeq (run envC7w).1 = releasedSeq (run envC7wBad).1 :=
  (C7_amended_release_phase_isolated envC7w envC7wBad rfl rfl rfl rfl
    rfl).1

end ContainerReaper

namespace ContainerReaper

/-- The spec-side release condition of C1, with the absent aggregate
entry explicit: release iff the job's recorded max successful build
exceeds the group's max failed build (an absent record never does), or a
later failed attempt supersedes this container. -/
def specReleaseCond (succ : Option Int) (maxFailed b : Int) : Prop :=
  (∃ s, succ = some s ∧ maxFailed < s) ∨ maxFailed > b

theorem codeCond_iff_specCond (env : Env) (sc fc : List SavedContainer)
    (jobID : Int) (group : List SavedContainer) (d : SavedContainer)
    (hposf : ∀ e ∈ fc, 0 < e.buildID)
    (hgrp : (jobID, group) ∈ (buildFailedMap env fc).2)
    (hd : d ∈ group) :
    (lookupD (buildSuccessMap env sc).2 jobID > maxBuild group ∨
        maxBuild group > d.buildID) ↔
      specReleaseCond (specSuccEntry (buildSuccessMap env sc).2 jobID)
        (maxBuild group) d.buildID := by
  have hmem : d ∈ fc :=
    (buildFailedMap_snd_mem env fc (jobID, group) d hgrp hd).1
  have hpos : 0 < d.buildID := hposf d hmem
  have hmb : 0 < maxBuild group :=
    lt_of_lt_of_le hpos (le_maxBuild group d hd)
  rw [lookupD_eq_specSuccEntry]
  unfold specReleaseCond
  cases hse : specSuccEntry (buildSuccessMap env sc).2 jobID with
  | none =>
    simp only [Option.getD_none]
    constructor
    · rintro (hlt | hlt)
      · omega
      · exact Or.inr hlt
    · rintro (⟨s, hs, _⟩ | hlt)
      · cases hs
      · exact Or.inr hlt
  | some s =>
    simp only [Option.getD_some]
    constructor
    · rintro (hlt | hlt)
      · exact Or.inl ⟨s, rfl, hlt⟩
      · exact Or.inr hlt
    · rintro (⟨s', hs', hlt⟩ | hlt)
      · exact Or.inl (by cases hs'; omega)
      · exact Or.inr hlt

/-- C1: for a job group of `buildFailedMap`, a container with build `b`
has release invoked in the per-job decision loop iff
`maxSuccessfulBuildID > maxFailedBuildID` or `maxFailedBuildID > b`,
where `maxFailedBuildID` is the group's maximum build ID and
`maxSuccessfulBuildID` is the job's Step-1 aggregate entry, an absent
entry counting as lower than any real (positive) build ID; in
particular, when the aggregate strictly exceeds the group maximum, every
container of the group is released. -/
theorem C1_release_iff_superseded_or_succeeded (env : Env)
    (sc fc : List SavedContainer) (jobID : Int)
    (group : List SavedContainer) (c : SavedContainer)
    (hposf : ∀ e ∈ fc, 0 < e.buildID)
    (hgrp : (jobID, group) ∈ (buildFailedMap env fc).2)
    (hc : c ∈ group)
    (hagree : ∀ d ∈ group, d.handle = c.handle → d.buildID = c.buildID) :
    (Event.releaseCall c.handle ∈
        processGroup env (buildSuccessMap env sc).2 jobID
          (maxBuild group) group ↔
      specReleaseCond (specSuccEntry (buildSuccessMap env sc).2 jobID)
        (maxBuild group) c.buildID) ∧
    ((∃ s, specSuccEntry (buildSuccessMap env sc).2 jobID = some s ∧
        maxBuild group < s) →
      ∀ d ∈ group, Event.releaseCall d.handle ∈
        processGroup env (buildSuccessMap env sc).2 jobID
          (maxBuild group) group) := by
  constructor
  · rw [releaseCall_mem_processGroup]
    constructor
    · rintro ⟨d, hd, hh, hcond⟩
      rw [codeCond_iff_specCond env sc fc jobID group d hposf hgrp hd]
        at hcond
      have hb := hagree d hd hh
      unfold specReleaseCond at hcond ⊢
      rw [← hb]
      exact hcond
    · intro hcond
      refine ⟨c, hc, rfl, ?_⟩
      rw [codeCond_iff_specCond env sc fc jobID group c hposf hgrp hc]
      exact hcond
  · rintro ⟨s, hs, hlt⟩ d hd
    rw [releaseCall_mem_processGroup]
    refine ⟨d, hd, rfl, Or.inl ?_⟩
    rw [lookupD_eq_specSuccEntry, hs]
    exact hlt

end ContainerReaper

namespace ContainerReaper

/-- Containers for the C1 witness: failed builds 10 and 12 and a
successful build 13, all of one job. -/
def cX10 : SavedContainer := ⟨"x10", 10, 1, "j"⟩

def cX12 : SavedContainer := ⟨"x12", 12, 1, "j"⟩

def cX13 : SavedContainer := ⟨"x13", 13, 1, "j"⟩

/-- Environment for the C1 witness. -/
def envC1 : Env :=
  { successQ := some [cX13]
    failQ := some [cX10, cX12]
    orphanQ := some []
    resolve := fun _ => .found 7
    buildWithIDOk := fun _ => true
    getConfig := fun _ => .found ["j"]
    lookup := fun _ => .found
    updateOk := fun _ => true }

theorem C1_release_iff_superseded_or_succeeded_witness :
    Event.releaseCall "x10" ∈
      processGroup envC1 (buildSuccessMap envC1 [cX13]).2 7
        (maxBuild [cX10, cX12]) [cX10, cX12] :=
  (C1_release_iff_superseded_or_succeeded envC1 [cX13] [cX10, cX12] 7
      [cX10, cX12] cX10 (by decide) (by decide) (by decide)
      (by decide)).1.mpr (Or.inr (by decide))

/-- Containers for the C2 counterexample: two containers of the same
failed build, so both carry the group's maximum build ID. -/
def cA2 : SavedContainer := ⟨"a", 5, 1, "j"⟩

def cB2 : SavedContainer := ⟨"b", 5, 1, "j"⟩

/-- Environment for the C2 counterexample. -/
def envC2 : Env :=
  { successQ := some []
    failQ := some [cA2, cB2]
    orphanQ := some []
    resolve := fun _ => .found 7
    buildWithIDOk := fun _ => true
    getConfig := fun _ => .found ["j"]
    lookup := fun _ => .found
    updateOk := fun _ => true }

/-- C2 counterexample: job 7's group holds two unsuccessful containers,
no success is on record, yet neither container is released — two are
retained, refuting "exactly one container is retained" and "at most one
container per job". -/
theorem C2_counterexample :
    (buildFailedMap envC2 [cA2, cB2]).2 = [(7, [cA2, cB2])] ∧
    specSuccEntry (buildSuccessMap envC2 []).2 7 = none ∧
    Event.releaseCall "a" ∉ (run envC2).1 ∧
    Event.releaseCall "b" ∉ (run envC2).1 := by
  decide

/-- C2 (amended): for a job group with no recorded success at or after
the group's maximum failed build ID, a container is retained iff its
build ID equals the group maximum (all others are released); at least
one such container exists, and when build IDs are pairwise distinct
within the group exactly one container carries the maximum, so exactly
one is retained. -/
theorem C2_amended_retain_exactly_max (env : Env)
    (sc fc : List SavedContainer) (jobID : Int)
    (group : List SavedContainer)
    (hposf : ∀ d ∈ fc, 0 < d.buildID)
    (hgrp : (jobID, group) ∈ (buildFailedMap env fc).2)
    (hne : group ≠ [])
    (hnos : ∀ s, specSuccEntry (buildSuccessMap env sc).2 jobID = some s →
      s < maxBuild group)
    (hagree : ∀ d ∈ group, ∀ e ∈ group, d.handle = e.handle →
      d.buildID = e.buildID) :
    (∀ c ∈ group,
      (Event.releaseCall c.handle ∉
          processGroup env (buildSuccessMap env sc).2 jobID
            (maxBuild group) group ↔
        c.buildID = maxBuild group)) ∧
    (∃ c ∈ group, c.buildID = maxBuild group) ∧
    (List.Pairwise (fun d e => d.buildID ≠ e.buildID) group →
      (group.filter (fun c => c.buildID == maxBuild group)).length = 1) := by
  obtain ⟨c0, hc0⟩ := List.exists_mem_of_ne_nil group hne
  have hc0fc : c0 ∈ fc :=
    (buildFailedMap_snd_mem env fc (jobID, group) c0 hgrp hc0).1
  have hc0pos : 0 < c0.buildID := hposf c0 hc0fc
  have hmb : 0 < maxBuild group :=
    lt_of_lt_of_le hc0pos (le_maxBuild group c0 hc0)
  have hnot : ¬ lookupD (buildSuccessMap env sc).2 jobID >
      maxBuild group := by
    rw [lookupD_eq_specSuccEntry]
    cases hse : specSuccEntry (buildSuccessMap env sc).2 jobID with
    | none => simp only [Option.getD_none]; omega
    | some s =>
      simp only [Option.getD_some]
      have := hnos s hse
      omega
  refine ⟨?_, ?_, ?_⟩
  · intro c hc
    rw [releaseCall_mem_processGroup]
    constructor
    · intro hnm
      have hle := le_maxBuild group c hc
      by_contra hne2
      exact hnm ⟨c, hc, rfl, Or.inr (by omega)⟩
    · intro heq
      rintro ⟨d, hd, hh, hcond | hcond⟩
      · exact hnot hcond
      · have := hagree d hd c hc hh
        omega
  · rcases maxBuild_attained group c0 hc0 hc0pos with ⟨d, hd, hdm⟩
    exact ⟨d, hd, hdm.symm⟩
  · intro hpw
    rcases maxBuild_attained group c0 hc0 hc0pos with ⟨d, hd, hdm⟩
    have hdf : d ∈ group.filter (fun c => c.buildID == maxBuild group) :=
      List.mem_filter.mpr ⟨hd, by simp [hdm]⟩
    cases hfil : group.filter (fun c => c.buildID == maxBuild group) with
    | nil =>
      rw [hfil] at hdf
      cases hdf
    | cons x rest =>
      cases rest with
      | nil => rfl
      | cons y rest2 =>
        exfalso
        have hpwf := hpw.filter (fun c => c.buildID == maxBuild group)
        rw [hfil] at hpwf
        have hxy : x.buildID ≠ y.buildID :=
          (List.pairwise_cons.mp hpwf).1 y (by simp)
        have hx : x ∈ group.filter (fun c => c.buildID == maxBuild group) := by
          rw [hfil]; simp
        have hy : y ∈ group.filter (fun c => c.buildID == maxBuild group) := by
          rw [hfil]; simp
        have hxe : x.buildID = maxBuild group := by
          have := (List.mem_filter.mp hx).2
          simpa using this
        have hye : y.buildID = maxBuild group := by
          have := (List.mem_filter.mp hy).2
          simpa using this
        exact hxy (hxe.trans hye.symm)

/-- Containers for the C2 amended witness: distinct failed builds 10 and
12 of one job, no success on record. -/
def cD10 : SavedContainer := ⟨"d10", 10, 1, "j"⟩

def cD12 : SavedContainer := ⟨"d12", 12, 1, "j"⟩

/-- Environment for the C2 amended witness. -/
def envC2w : Env :=
  { successQ := some []
    failQ := some [cD10, cD12]
    orphanQ := some []
    resolve := fun _ => .found 7
    buildWithIDOk := fun _ => true
    getConfig := fun _ => .found ["j"]
    lookup := fun _ => .found
    updateOk := fun _ => true }

theorem C2_amended_retain_exactly_max_witness :
    Event.releaseCall "d12" ∉
      processGroup envC2w (buildSuccessMap envC2w []).2 7
        (maxBuild [cD10, cD12]) [cD10, cD12] :=
  ((C2_amended_retain_exactly_max envC2w [] [cD10, cD12] 7 [cD10, cD12]
      (by decide) (by decide) (by decide)
      (fun s hs => by
        rw [show specSuccEntry (buildSuccessMap envC2w []).2 7 = none
          from rfl] at hs
        exact Option.noConfusion hs)
      (by decide)).1 cD12 (by decide)).mpr (by decide)

end ContainerReaper

namespace ContainerReaper

theorem count_flattenReleases (env : Env) (l : List SavedContainer)
    (e : Event) (h : String) (hh : eventHandle e = some h) :
    ((l.map (fun d => (release env d.handle).1)).flatten).count e =
      l.countP (fun d => d.handle == h) * (release env h).1.count e := by
  induction l with
  | nil => simp
  | cons d rest ih =>
    rw [List.map_cons, List.flatten_cons, List.count_append, ih,
      List.countP_cons]
    by_cases hd : d.handle = h
    · rw [hd]
      simp only [beq_self_eq_true, if_true]
      ring
    · have hz : (release env d.handle).1.count e = 0 :=
        count_release_zero env h d.handle e hh (fun heq => hd heq.symm)
      have hb : (d.handle == h) = false := by
        simp [hd]
      rw [hz, hb]
      simp

theorem count_processGroups_zero (env : Env) (sm : List (Int × Int))
    (groups : List (Int × List SavedContainer)) (e : Event) (h : String)
    (hh : eventHandle e = some h)
    (hgr : ∀ p ∈ groups, ∀ d ∈ p.2, d.handle ≠ h) :
    (processGroups env sm groups).count e = 0 := by
  rw [List.count_eq_zero]
  intro hm
  rcases mem_processGroups env sm groups e hm with ⟨p, hp, d, hd, hdh⟩
  rw [hh] at hdh
  exact hgr p hp d hd (Option.some.inj hdh).symm

/-- C10: a successful-build candidate whose build-to-job resolution
errors or misses, with healthy worker and registry responses, has the
complete release sequence — worker lookup, worker-side TTL instruction,
registry expiry update — performed twice in one pass: once in the
unconditional disposal loop and once more inside the aggregate-map
construction. -/
theorem C10_resolution_failure_double_release (env : Env)
    (sc fc : List SavedContainer) (c : SavedContainer)
    (hs : env.successQ = some sc) (hf : env.failQ = some fc)
    (hc : c ∈ sc)
    (hcount : sc.countP (fun d => d.handle == c.handle) = 1)
    (hagree : ∀ d ∈ sc, d.handle = c.handle → d = c)
    (hres : resolveFails env c = true)
    (hfc : ∀ d ∈ fc, d.handle ≠ c.handle)
    (hlk : env.lookup c.handle = .found) :
    (run env).1.count (.releaseCall c.handle) = 2 ∧
    (run env).1.count (.workerLookup c.handle) = 2 ∧
    (run env).1.count (.workerTTL c.handle) = 2 ∧
    (run env).1.count (.dbUpdate c.handle) = 2 := by
  have key : ∀ e : Event, eventHandle e = some c.handle →
      (release env c.handle).1.count e = 1 →
      (run env).1.count e = 2 := by
    intro e hh hcnt
    have hqs : (Event.querySuccessful == e) = false := by
      cases e <;> simp_all [eventHandle]
    have hqu : (Event.queryUnsuccessful == e) = false := by
      cases e <;> simp_all [eventHandle]
    rw [run_fst env sc fc hs hf, List.count_cons, hqs,
      List.count_append, List.count_append, List.count_append,
      List.count_append]
    simp only [Bool.false_eq_true, if_false, Nat.add_zero]
    have hA : (releaseAll env sc).count e = 1 := by
      rw [releaseAll_eq_flatten, count_flattenReleases env sc e c.handle hh,
        hcount, hcnt]
    have hU : List.count e [Event.queryUnsuccessful] = 0 := by
      rw [List.count_singleton, hqu]
      simp
    have hB : (buildFailedMap env fc).1.count e = 0 := by
      rw [buildFailedMap, buildFailedMapAux_fst,
        count_flattenReleases env _ e c.handle hh]
      have : (fc.filter (fun d => (acceptsContainer env d).isNone)).countP
          (fun d => d.handle == c.handle) = 0 := by
        rw [List.countP_eq_zero]
        intro d hd
        have hdm := (List.mem_filter.mp hd).1
        simp [hfc d hdm]
      rw [this, Nat.zero_mul]
    have hC : (buildSuccessMap env sc).1.count e = 1 := by
      rw [buildSuccessMap, buildSuccessMapAux_fst,
        count_flattenReleases env _ e c.handle hh, List.countP_filter]
      have : sc.countP
          (fun d => (d.handle == c.handle) && resolveFails env d) =
          sc.countP (fun d => d.handle == c.handle) := by
        apply List.countP_congr
        intro d hd
        constructor
        · intro hb
          exact (Bool.and_eq_true _ _ ▸ hb).1
        · intro hb
          have hdc : d = c := hagree d hd (by simpa using hb)
          rw [Bool.and_eq_true]
          exact ⟨hb, hdc ▸ hres⟩
      rw [this, hcount, hcnt]
    have hD : (processGroups env (buildSuccessMap env sc).2
        (buildFailedMap env fc).2).count e = 0 := by
      refine count_processGroups_zero env _ _ e c.handle hh ?_
      intro p hp d hd
      exact hfc d (buildFailedMap_snd_mem env fc p d hp hd).1
    rw [hA, hU, hB, hC, hD]
  have hcf := counts_release_found env c.handle hlk
  exact ⟨key _ rfl hcf.1, key _ rfl hcf.2.1, key _ rfl hcf.2.2.1,
    key _ rfl hcf.2.2.2⟩

/-- Successful-build candidate for the C10 witness. -/
def cS10 : SavedContainer := ⟨"s10", 99, 1, "j"⟩

/-- Environment for the C10 witness: its build resolves to no job. -/
def envC10 : Env :=
  { successQ := some [cS10]
    failQ := some []
    orphanQ := some []
    resolve := fun _ => .notFound
    buildWithIDOk := fun _ => true
    getConfig := fun _ => .found ["j"]
    lookup := fun _ => .found
    updateOk := fun _ => true }

theorem C10_resolution_failure_double_release_witness :
    (run envC10).1.count (.releaseCall "s10") = 2 :=
  (C10_resolution_failure_double_release envC10 [cS10] [] cS10 rfl rfl
    (by decide) (by decide) (by decide) (by decide) (by decide)
    (by decide)).1

end ContainerReaper
